import Mathlib

/-!
Verification of the upanier repository (src/upanier.py, src/urpm.py):
a shallow embedding of the archive packer (`Pack`), its synthesis and
sidecar-document writers, and the dependency-constraint formatter,
together with theorems settling the specification claims.

Bytes are modelled as `Nat` (values 0..255), byte strings as `List Nat`,
Python `str` as Lean `String`, Python `dict` (insertion-ordered) as an
association list `List (key × value)` with update-or-append insertion.
-/

/-! ## Python string primitives, modelled over `List Char` -/

/-- Strict lexicographic comparison of character lists by code point,
the order Python uses to compare `str` values. -/
def charsLt : List Char → List Char → Bool
  | [], [] => false
  | [], _ :: _ => true
  | _ :: _, [] => false
  | a :: as, b :: bs =>
    if a.toNat < b.toNat then true
    else if b.toNat < a.toNat then false
    else charsLt as bs

/-- Python `a <= b` on strings. -/
def strLeB (a b : String) : Bool := !(charsLt b.data a.data)

/-- The ordering relation used by Python `sorted` on strings. -/
def pyLe (a b : String) : Prop := strLeB a b = true

instance : DecidableRel pyLe :=
  fun a b => (Bool.decEq (strLeB a b) true : Decidable (strLeB a b = true))

theorem char_eq_of_toNat_eq {a b : Char} (h : a.toNat = b.toNat) : a = b :=
  Char.ext (UInt32.ext h)

theorem bool_not_true {x : Bool} (h : (!x) = true) : x = false := by
  cases x <;> simp_all

theorem charsLt_irrefl : ∀ l, charsLt l l = false
  | [] => rfl
  | a :: as => by simp [charsLt, charsLt_irrefl as]

theorem charsLt_trans : ∀ x y z, charsLt x y = true → charsLt y z = true →
    charsLt x z = true
  | x, y, [] => by
    intro _ h2
    cases y <;> simp [charsLt] at h2
  | [], _, _ :: _ => by intro _ _; simp [charsLt]
  | _ :: _, [], _ :: _ => by intro h1 _; simp [charsLt] at h1
  | a :: as, b :: bs, c :: cs => by
    intro h1 h2
    simp only [charsLt] at h1 h2 ⊢
    rcases Nat.lt_trichotomy a.toNat b.toNat with hab | hab | hab
    · rcases Nat.lt_trichotomy b.toNat c.toNat with hbc | hbc | hbc
      · simp [show a.toNat < c.toNat from by omega]
      · simp [show a.toNat < c.toNat from by omega]
      · simp [show ¬ b.toNat < c.toNat from by omega,
          show c.toNat < b.toNat from hbc] at h2
    · rcases Nat.lt_trichotomy b.toNat c.toNat with hbc | hbc | hbc
      · simp [show a.toNat < c.toNat from by omega]
      · simp only [show ¬ a.toNat < b.toNat from by omega,
          show ¬ b.toNat < a.toNat from by omega, if_neg, ite_false,
          if_false] at h1
        simp only [show ¬ b.toNat < c.toNat from by omega,
          show ¬ c.toNat < b.toNat from by omega, if_neg, ite_false,
          if_false] at h2
        simp only [show ¬ a.toNat < c.toNat from by omega,
          show ¬ c.toNat < a.toNat from by omega, if_neg, ite_false,
          if_false]
        exact charsLt_trans as bs cs h1 h2
      · simp [show ¬ b.toNat < c.toNat from by omega,
          show c.toNat < b.toNat from hbc] at h2
    · simp [show ¬ a.toNat < b.toNat from by omega,
        show b.toNat < a.toNat from hab] at h1

theorem charsLt_connex : ∀ x y, charsLt x y = false → charsLt y x = false → x = y
  | [], [] => fun _ _ => rfl
  | [], _ :: _ => by intro h _; simp [charsLt] at h
  | _ :: _, [] => by intro _ h; simp [charsLt] at h
  | a :: as, b :: bs => by
    intro h1 h2
    simp only [charsLt] at h1 h2
    rcases Nat.lt_trichotomy a.toNat b.toNat with hab | hab | hab
    · simp [hab] at h1
    · simp only [show ¬ a.toNat < b.toNat from by omega,
        show ¬ b.toNat < a.toNat from by omega, if_neg, ite_false,
        if_false] at h1 h2
      have heq : a = b := char_eq_of_toNat_eq hab
      have : as = bs := charsLt_connex as bs h1 h2
      rw [heq, this]
    · simp [hab] at h2

instance : IsTotal String pyLe := by
  refine ⟨fun a b => ?_⟩
  by_cases h : charsLt b.data a.data = true
  · right
    show (!(charsLt a.data b.data)) = true
    have hfalse : charsLt a.data b.data = false := by
      by_contra hc
      rw [Bool.not_eq_false] at hc
      have := charsLt_trans _ _ _ h hc
      rw [charsLt_irrefl] at this
      exact Bool.false_ne_true this
    simp [hfalse]
  · left
    show (!(charsLt b.data a.data)) = true
    rw [Bool.not_eq_true] at h
    simp [h]

instance : IsTrans String pyLe := by
  refine ⟨fun a b c hab hbc => ?_⟩
  have hab' : charsLt b.data a.data = false := bool_not_true hab
  have hbc' : charsLt c.data b.data = false := bool_not_true hbc
  show (!(charsLt c.data a.data)) = true
  have hfalse : charsLt c.data a.data = false := by
    by_contra hc
    rw [Bool.not_eq_false] at hc
    by_cases hb : charsLt a.data b.data = true
    · have := charsLt_trans _ _ _ hc hb
      rw [hbc'] at this
      exact Bool.false_ne_true this
    · rw [Bool.not_eq_true] at hb
      have heq : a.data = b.data := charsLt_connex _ _ hb hab'
      rw [heq, hbc'] at hc
      exact Bool.false_ne_true hc
  simp [hfalse]

instance : IsAntisymm String pyLe := by
  refine ⟨fun a b hab hba => ?_⟩
  have hab' : charsLt b.data a.data = false := bool_not_true hab
  have hba' : charsLt a.data b.data = false := bool_not_true hba
  have heq : a.data = b.data := charsLt_connex _ _ hba' hab'
  exact congrArg String.mk heq

/-- Python `sorted` on a list of strings (ascending by code point). -/
def pySorted (l : List String) : List String := List.insertionSort pyLe l

/-- Does the second list occur as the leading run of the first
(`startswith` over character lists)? -/
def chLeads : List Char → List Char → Bool
  | _, [] => true
  | [], _ :: _ => false
  | a :: as, b :: bs => if a = b then chLeads as bs else false

/-- Python `s.startswith(p)`. -/
def pyStartswith (s p : String) : Bool := chLeads s.data p.data

/-- Python `s.endswith(p)`. -/
def pyEndswith (s p : String) : Bool := chLeads s.data.reverse p.data.reverse

/-- Python `s.removesuffix(p)`: drops one trailing occurrence of `p`
when present (and `p` is nonempty), else returns `s` unchanged. -/
def pyRemovesuffix (s p : String) : String :=
  if p.data.length ≠ 0 ∧ pyEndswith s p = true then
    ⟨s.data.take (s.data.length - p.data.length)⟩
  else s

/-- Split a character list on a separator character
(Python `str.split` with a one-character separator). -/
def splitChars (c : Char) : List Char → List (List Char)
  | [] => [[]]
  | a :: as =>
    let r := splitChars c as
    if a = c then [] :: r
    else
      match r with
      | [] => [[a]]
      | h :: t => (a :: h) :: t

/-- Python `s.split(c)` for a one-character separator. -/
def pySplit (s : String) (c : Char) : List String :=
  (splitChars c s.data).map (fun l => ⟨l⟩)

/-- Python `os.path.basename`: the component after the last slash. -/
def pyBasename (p : String) : String := (pySplit p '/').getLastD ""

/-- UTF-8 bytes of an ASCII string (code points, valid for all strings
appearing in the archive format). -/
def asciiBytes (s : String) : List Nat := s.data.map Char.toNat

/-- Python `int(s)` restricted to the forms the filter parser meets:
an optional leading minus sign followed by decimal digits. -/
def pyInt (s : String) : Option Int :=
  let digits : List Char → Option Nat := fun l =>
    if l = [] then none
    else
      l.foldl (fun acc c => acc.bind fun n =>
        if 48 ≤ c.toNat ∧ c.toNat ≤ 57 then some (n * 10 + (c.toNat - 48))
        else none) (some 0)
  match s.data with
  | '-' :: rest => (digits rest).map (fun n => -(n : Int))
  | l => (digits l).map (fun n => (n : Int))

/-! ## Python dict as insertion-ordered association list -/

/-- Python `d[k] = v` on an insertion-ordered dict: update in place when
the key exists, append otherwise. -/
def dictInsert {α : Type} : List (String × α) → String → α → List (String × α)
  | [], k, v => [(k, v)]
  | (k', v') :: t, k, v =>
    if k' = k then (k, v) :: t else (k', v') :: dictInsert t k v

/-- Python `d.get(k)`. -/
def dictLookup {α : Type} : List (String × α) → String → Option α
  | [], _ => none
  | (k', v) :: t, k => if k' = k then some v else dictLookup t k

theorem dictLookup_dictInsert_self {α : Type} :
    ∀ (d : List (String × α)) (k : String) (v : α),
    dictLookup (dictInsert d k v) k = some v
  | [], k, v => by simp [dictInsert, dictLookup]
  | (k', v') :: t, k, v => by
    by_cases h : k' = k
    · simp [dictInsert, dictLookup, h]
    · simp [dictInsert, dictLookup, h, dictLookup_dictInsert_self t k v]

theorem dictInsert_keys_of_mem {α : Type} :
    ∀ (d : List (String × α)) (k : String) (v : α),
    k ∈ d.map Prod.fst → (dictInsert d k v).map Prod.fst = d.map Prod.fst
  | [], k, v => by simp
  | (k', v') :: t, k, v => by
    intro hmem
    by_cases h : k' = k
    · simp [dictInsert, h]
    · simp only [List.map_cons, List.mem_cons] at hmem
      rcases hmem with h1 | h2
      · exact absurd h1.symm h
      · simp [dictInsert, h, dictInsert_keys_of_mem t k v h2]

theorem dictInsert_mem_keys {α : Type} :
    ∀ (d : List (String × α)) (k : String) (v : α),
    k ∈ (dictInsert d k v).map Prod.fst
  | [], k, v => by simp [dictInsert]
  | (k', v') :: t, k, v => by
    by_cases h : k' = k
    · simp [dictInsert, h]
    · simp [dictInsert, h, dictInsert_mem_keys t k v]

/-! ## The archive packer (`Pack` in src/urpm.py)

`Pack.write` iterates the synthesis dict, appends each package's raw
header bytes to the current in-memory block, records the entry's
`size`/`off`/`csize`/`coff`, and flushes a block (`end_block`) whenever
the accumulated uncompressed data reaches `block_size`; a final
`end_block` and `build_toc` finish the archive.  The compression call
(`gzip.GzipFile` / `lzma.compress`) is an external library; it is
modelled as an abstract function `compress : List Nat → List Nat`. -/

/-- Per-entry metadata dict created in `Pack.write` (src/urpm.py:162-167).
The Python dict's insertion order is `size`, `off`, `csize`, `coff`;
`metaValues` below depends on that order. -/
structure FileMeta where
  size : Nat
  off : Nat
  csize : Int
  coff : Nat
deriving DecidableEq

/-- Python `self.files[rpm].values()` — the dict values in insertion
order `size, off, csize, coff` (src/urpm.py:292 reads them in this
order and names them `coff, csize, off, size`). -/
def metaValues (m : FileMeta) : List Int :=
  [(m.size : Int), (m.off : Int), m.csize, (m.coff : Int)]

/-- One `end_block` emission: the file position written to, the entries
whose names were in `current_block_files` when the block closed (paired
with the raw header bytes appended for them in the same loop iteration
of `Pack.write`), the uncompressed block data and the compressed bytes. -/
structure Block where
  writePos : Nat
  entries : List (String × List Nat)
  data : List Nat
  cdata : List Nat
deriving DecidableEq

/-- Mutable state of a `Pack` object (the fields of `Pack.__init__`
relevant to `write`/`end_block`/`build_toc`), plus the bytes of the
output file and the list of emitted blocks. -/
structure PackSt where
  files : List (String × FileMeta) := []
  coff : Nat := 0
  curData : List Nat := []
  curFiles : List (String × List Nat) := []
  curCsize : Nat := 0
  curCoff : Nat := 0
  curOff : Nat := 0
  uncompress : List Nat := []
  fileData : List Nat := []
  blocks : List Block := []
  tocWritten : List Nat := []
  tocOrphan : List Nat := []
deriving DecidableEq

/-- Writing `d` at position `pos` of a file whose current contents are
`f`: a seek past the end zero-fills the gap (POSIX semantics used by
`handle.seek` / `handle.write`). -/
def fileWrite (f : List Nat) (pos : Nat) (d : List Nat) : List Nat :=
  f.take pos ++ List.replicate (pos - f.length) 0 ++ d ++ f.drop (pos + d.length)

/-- `Pack.end_block` (src/urpm.py:312-338): seek to `self.coff`, compress
the accumulated block data, write it, stamp `csize` on every entry of the
block (note: the source assigns `self.current_block_csize`, which is still
0 at that point, *before* adding `outsize` to it), then advance the
cursors and reset the per-block state.  `filterName` selects the
`uncompress` command string exactly as the two branches do. -/
def end_block (compress : List Nat → List Nat) (filterName : String)
    (st : PackSt) : PackSt :=
  let cdata := compress st.curData
  let outsize := cdata.length
  let newFiles := st.files.map (fun p =>
    if st.curFiles.any (fun q => q.1 = p.1) then
      (p.1, { p.2 with csize := (st.curCsize : Int) })
    else p)
  let curCsize' := st.curCsize + outsize
  { st with
    uncompress := if filterName = "gzip" then asciiBytes "gzip -d"
                  else asciiBytes "xz -d",
    fileData := fileWrite st.fileData st.coff cdata,
    files := newFiles,
    blocks := st.blocks ++ [⟨st.coff, st.curFiles, st.curData, cdata⟩],
    coff := st.coff + curCsize',
    curCoff := st.curCoff + curCsize',
    curCsize := 0,
    curFiles := [],
    curOff := 0,
    curData := [] }

/-- One iteration of the loop in `Pack.write` (src/urpm.py:156-169):
append the entry to `current_block_files` and its header bytes to
`current_block_data`, record its metadata dict (`off` is incremented
*before* being recorded, `csize` starts at -1), and flush when the
accumulated data has reached `block_size`. -/
def writeStep (bs : Nat) (compress : List Nat → List Nat)
    (filterName : String) (st : PackSt) (pkg : String × List Nat) : PackSt :=
  let st1 := { st with
    curFiles := st.curFiles ++ [pkg],
    curOff := st.curOff + pkg.2.length,
    curData := st.curData ++ pkg.2 }
  let st2 := { st1 with
    files := dictInsert st1.files pkg.1
      ⟨pkg.2.length, st1.curOff, -1, st1.curCoff⟩ }
  if bs ≤ st2.curData.length then end_block compress filterName st2 else st2

/-- `Pack.write` (src/urpm.py:153-170) up to and including the final
`end_block` (the subsequent `build_toc` and `handle.close` are modelled
separately): reset `current_block_off`/`current_block_coff`, loop over
the packages in synthesis order, then flush the last partial block. -/
def packWriteSim (bs : Nat) (compress : List Nat → List Nat)
    (filterName : String) (pkgs : List (String × List Nat)) : PackSt :=
  end_block compress filterName
    (pkgs.foldl (writeStep bs compress filterName)
      { curOff := 0, curCoff := 0 })

/-- `struct.pack(">i", n)`: big-endian two's-complement 32-bit encoding. -/
def int32BE (n : Int) : List Nat :=
  let m := (n % 4294967296).toNat
  [m / 16777216 % 256, m / 65536 % 256, m / 256 % 256, m % 256]

/-- `struct.pack("40s", s)`: truncate to 40 bytes or pad with NUL. -/
def pad40 (s : List Nat) : List Nat :=
  s.take 40 ++ List.replicate (40 - s.length) 0

/-- Names emitted into the TOC: `sorted(self.files.keys())`
(src/urpm.py:289-293). -/
def tocNames (files : List (String × FileMeta)) : List String :=
  pySorted (files.map Prod.fst)

/-- `Pack.build_toc` (src/urpm.py:272-304) with `need_build_toc` true
(the flag is never cleared in the source): flush once more, compute
`toc_length` over the (empty) dir and symlink sections, the sorted
entry names and one 16-byte record per entry; build `toc_str` from the
names and the fixed footer, and build `toc_sizes_offsets` from each
entry's `.values()` — the source destructures those values as
`coff, csize, off, size`, so the variables named that way actually hold
`size, off, csize, coff`, and `toc_sizes_offsets` is accumulated but
never appended to `toc_str`, hence never written.  `self.coff` grows by
`toc_length` *before* the seek, so the TOC lands `toc_length` bytes past
the end of the data.  The written bytes end with
`pack(">4s4i40s4s", "cz[0", len(dir), len(symlink), len(files),
toc_length, uncompress, "0]cz")` with dir and symlink always empty. -/
def build_toc (compress : List Nat → List Nat) (filterName : String)
    (st0 : PackSt) : PackSt :=
  let st := end_block compress filterName st0
  let names := tocNames st.files
  let tocLength := (names.map (fun e => e.data.length + 1)).sum
    + 16 * names.length
  let tocStr := (names.map (fun e => asciiBytes e ++ [10])).flatten
  let tocSizesOffsets := (names.map (fun e =>
    match dictLookup st.files e with
    | some m => ((metaValues m).map int32BE).flatten
    | none => [])).flatten
  let footer := asciiBytes "cz[0" ++ int32BE 0 ++ int32BE 0
    ++ int32BE (st.files.length : Int) ++ int32BE (tocLength : Int)
    ++ pad40 st.uncompress ++ asciiBytes "0]cz"
  let coff' := st.coff + tocLength
  let written := tocStr ++ footer
  { st with
    coff := coff',
    fileData := fileWrite st.fileData coff' written,
    tocWritten := written,
    tocOrphan := tocSizesOffsets }

/-- The read-back procedure the round-trip claim describes: slice
`csize` compressed bytes at offset `coff` of the archive, decompress
them, and take `size` bytes starting at block-relative offset `off`. -/
def entryRead (decompress : List Nat → List Nat) (archive : List Nat)
    (m : FileMeta) : List Nat :=
  let block := decompress ((archive.drop m.coff).take m.csize.toNat)
  (block.drop m.off).take m.size

/-- Is `needle` a leading run of `hay`? -/
def leadsList : List Nat → List Nat → Bool
  | _, [] => true
  | [], _ :: _ => false
  | a :: as, b :: bs => if a = b then leadsList as bs else false

/-- Does `needle` occur contiguously anywhere inside `hay`? -/
def hasRun (needle hay : List Nat) : Bool :=
  (List.range (hay.length + 1)).any (fun i => leadsList (hay.drop i) needle)

/-! ## Pack lifecycle: explicit `write` vs implicit `__del__` finalize -/

/-- The lifecycle-relevant state of a `Pack` object: the `destroyed`
flag (src/urpm.py:28, set at the end of `write` and in `__del__`),
whether the output handle is still open, and how many
flush-TOC-close finalizations have been performed. -/
structure PackHandle where
  destroyed : Bool
  handleOpen : Bool
  finalizes : Nat
deriving DecidableEq

/-- State of a freshly constructed `Pack` (handle opened in
`__init__`, src/urpm.py:64). -/
def packHandleInit : PackHandle := ⟨false, true, 0⟩

/-- The I/O skeleton of `Pack.write` (src/urpm.py:153-173): it performs
`end_block` → `end_seek` → `handle.seek`, which raises `ValueError` on a
closed handle (`write` itself never checks `destroyed`); on an open
handle it flushes the blocks, builds the TOC, closes the handle and sets
`destroyed = True`. -/
def packWriteFin (st : PackHandle) : Except String PackHandle :=
  if st.handleOpen then
    Except.ok { destroyed := true, handleOpen := false,
                finalizes := st.finalizes + 1 }
  else
    Except.error "ValueError: seek of closed file"

/-- `Pack.__del__` (src/urpm.py:263-270): returns immediately when
`destroyed` is set, otherwise performs `end_block`, `build_toc` and
closes the handle. -/
def packDel (st : PackHandle) : PackHandle :=
  if st.destroyed then st
  else { destroyed := true, handleOpen := false,
         finalizes := st.finalizes + 1 }

/-! ## `add_pkg`, synthesis and the sidecar documents -/

/-- The header fields `Pack.add_pkg` reads from the external rpm header
object (src/urpm.py:178-198 and 201-237); only the fields the claims
exercise are carried, the rest of the field set is opaque to them.
`headerBytes` is `hdr.unload()`, `filesList` the first components of
`hdr.fiFromHeader()`. -/
structure RpmHdr where
  name : String := ""
  epoch : Option Nat := none
  sourcerpm : Option String := none
  url : String := ""
  license : String := ""
  description : String := ""
  size : Nat := 0
  group : String := ""
  filesList : List String := []
  changelogname : List String := []
  changelogtime : List Nat := []
  changelogtext : List String := []
  headerBytes : List Nat := []
deriving DecidableEq

/-- The `package_info` dict stored into `self.synthesis`
(src/urpm.py:178-239).  `sourcerpm` models the dict slot for the
`'sourcerpm'` key: `none` when the key is absent from the entry dict
(a shape `add_pkg` never builds — src/urpm.py:190 always inserts the
key), `some v` when the key is present with value `v`, where the inner
`v = none` models Python's `None` tag value. -/
structure PkgEntry where
  name : String := ""
  epoch : Nat := 0
  sourcerpm : Option (Option String) := some none
  url : String := ""
  license : String := ""
  description : String := ""
  size : Nat := 0
  group : String := ""
  filesList : List String := []
  changelogname : List String := []
  changelogtime : List Nat := []
  changelogtext : List String := []
  order : Nat := 0
  header : List Nat := []
deriving DecidableEq

/-- Builds the `package_info` dict from the header fields, with
`epoch = 0 if hdr[RPMTAG_EPOCH] == None else hdr[RPMTAG_EPOCH]`
(src/urpm.py:180) and the given `order` (src/urpm.py:235-237).  The
`'sourcerpm'` key is always inserted (src/urpm.py:190), carrying the
header tag's value, which may be Python `None`. -/
def pkgEntryOf (hdr : RpmHdr) (order : Nat) : PkgEntry :=
  { name := hdr.name, epoch := hdr.epoch.getD 0,
    sourcerpm := some hdr.sourcerpm, url := hdr.url, license := hdr.license,
    description := hdr.description, size := hdr.size, group := hdr.group,
    filesList := hdr.filesList, changelogname := hdr.changelogname,
    changelogtime := hdr.changelogtime, changelogtext := hdr.changelogtext,
    order := order, header := hdr.headerBytes }

/-- The synthesis dict and insertion counter of a `Pack`. -/
structure PackSyn where
  synthesis : List (String × PkgEntry) := []
  order : Nat := 0
deriving DecidableEq

/-- `Pack.add_pkg` (src/urpm.py:175-239): increments `self.order`,
builds `package_info` and stores it under
`os.path.basename(rpm_file.name)` — a plain dict assignment. -/
def add_pkg (st : PackSyn) (hdr : RpmHdr) (rpmFileName : String) : PackSyn :=
  { synthesis := dictInsert st.synthesis (pyBasename rpmFileName)
      (pkgEntryOf hdr (st.order + 1)),
    order := st.order + 1 }

/-- The closing line of one synthesis record
(src/urpm.py:99): `@info@<name with one trailing .rpm removed>@<epoch>@<size>@<group>`. -/
def synthesisInfoLine (name : String) (e : PkgEntry) : String :=
  "@info@" ++ pyRemovesuffix name ".rpm" ++ "@" ++ toString e.epoch
    ++ "@" ++ toString e.size ++ "@" ++ e.group ++ "\n"

/-- The markup head shared by the three sidecar documents
(src/urpm.py:104, 116, 128). -/
def xmlHead : String := "<?xml version=\"1.0\" encoding=\"utf-8\"?>\n<media_info>"

/-- Python f-string rendering of a value that may be `None`: Python
prints the `None` object as "None". -/
def pyStrOpt : Option String → String
  | none => "None"
  | some s => s

/-- The loop body of `Pack._write_info` (src/urpm.py:115-125): for each
entry in synthesis order, `sys.exit(1)` (modelled as an error) fires
when the `'sourcerpm'` KEY is absent from the entry dict — the guard at
src/urpm.py:118 is `'sourcerpm' not in entry.keys()`, a key-membership
test, and `add_pkg` always inserts the key (src/urpm.py:190), so the
exit path never fires for entries it builds; a key present with value
`None` is rendered as "None" by the f-string.  The source quotes
attribute values with U+0027; `q` below is that character. -/
def writeInfoGo (q : String) : List (String × PkgEntry) → String →
    Except String String
  | [], acc => Except.ok acc
  | (n, e) :: rest, acc =>
    match e.sourcerpm with
    | none => Except.error "sys.exit(1): Missing sourcerpm"
    | some src =>
      writeInfoGo q rest (acc ++ "<info fn=" ++ q ++ n ++ q ++ "\n sourcerpm="
        ++ q ++ pyStrOpt src ++ q ++ "\n url=" ++ q ++ e.url ++ q ++ "\n license="
        ++ q ++ e.license ++ q ++ " >\n" ++ e.description ++ "</info>\n")

/-- `Pack._write_info` (src/urpm.py:115-125). -/
def writeInfoDoc (syn : List (String × PkgEntry)) : Except String String :=
  (writeInfoGo ⟨[Char.ofNat 39]⟩ syn xmlHead).map (fun d => d ++ "</media_info>")

/-- `Pack._write_files` (src/urpm.py:103-112): always succeeds. -/
def writeFilesDoc (syn : List (String × PkgEntry)) : String :=
  (syn.foldl (fun acc p =>
    acc ++ "<files fn=\"" ++ p.1 ++ "\">\n"
      ++ (p.2.filesList.map (fun f => f ++ "\n")).foldl (· ++ ·) ""
      ++ "</files>\n") xmlHead) ++ "</media_info>"

/-- `Pack._write_changelog` (src/urpm.py:127-135): one log element per
index of `changelogname` (the parallel rpm arrays have equal length;
out-of-range access is modelled by a default, matching the rpm header
contract), closed by the literal "</info>" the source emits.  Always
succeeds. -/
def writeChangelogDoc (syn : List (String × PkgEntry)) : String :=
  let q : String := ⟨[Char.ofNat 39]⟩
  (syn.foldl (fun acc p =>
    acc ++ "<changelogs fn=" ++ q ++ p.1 ++ q ++ ">\n"
      ++ ((List.range p.2.changelogname.length).map (fun i =>
            "<log time=" ++ q ++ toString (p.2.changelogtime.getD i 0) ++ q
              ++ ">\n<log_name>" ++ p.2.changelogname.getD i ""
              ++ "</log_name>\n<log_text>" ++ p.2.changelogtext.getD i ""
              ++ "</log_text>\n</log>\n")).foldl (· ++ ·) ""
      ++ "</info>\n") xmlHead) ++ "</media_info>"

/-- `Pack.write_xml` (src/urpm.py:137-145), dispatching on the document
kind; an error means the process exited. -/
def writeXmlDoc (syn : List (String × PkgEntry)) (which : String) :
    Except String String :=
  if which = "info" then writeInfoDoc syn
  else if which = "files" then Except.ok (writeFilesDoc syn)
  else Except.ok (writeChangelogDoc syn)

/-- The sidecar loop of `add_new_rpms_to_hdlist` (src/upanier.py:329-331)
over `xml_media_info = ['info', 'files', 'changelog']`
(src/upanier.py:107): each document is written to its own file when its
generation succeeds; `sys.exit(1)` aborts the process, so later
documents are not written.  Returns the documents actually written and
whether the process exited early. -/
def runXmlDocs (syn : List (String × PkgEntry)) :
    List String → List String × Bool
  | [] => ([], false)
  | d :: rest =>
    match writeXmlDoc syn d with
    | Except.error _ => ([], true)
    | Except.ok _ =>
      let r := runXmlDocs syn rest
      (d :: r.1, r.2)

/-- All three sidecar documents in the order the orchestrator requests
them: info first, then files, then changelog. -/
def writeAllXml (syn : List (String × PkgEntry)) : List String × Bool :=
  runXmlDocs syn ["info", "files", "changelog"]

/-! ## The dependency-constraint formatter -/

/-- `rpm.RPMSENSE_LESS` (value from the external rpm library's
`rpmsenseFlags` enum). -/
def RPMSENSE_LESS : Nat := 2

/-- `rpm.RPMSENSE_GREATER`. -/
def RPMSENSE_GREATER : Nat := 4

/-- `rpm.RPMSENSE_EQUAL`. -/
def RPMSENSE_EQUAL : Nat := 8

/-- `Pack.print_list_entry` (src/urpm.py:241-260): the source walks
`names` while drawing matching elements from the `versions` and `flags`
iterators, which is the same as walking the zipped triples. -/
def print_list_entry (deps : List (String × String × Nat)) : List String :=
  deps.foldl (fun reqs d =>
    let name := d.1
    let version := d.2.1
    let flag := d.2.2
    if pyStartswith name "rpmlib(" = true then reqs
    else if version ≠ "" then
      let c1 := if flag &&& RPMSENSE_LESS ≠ 0 then "<" else ""
      let c2 := if flag &&& RPMSENSE_GREATER ≠ 0 then ">" else c1
      let c3 := if flag &&& RPMSENSE_EQUAL ≠ 0 then c2 ++ "=" else c2
      let c4 := if flag &&& (RPMSENSE_LESS ||| RPMSENSE_EQUAL
          ||| RPMSENSE_GREATER) = RPMSENSE_EQUAL then "==" else c3
      reqs ++ [name ++ "[" ++ c4 ++ " " ++ version ++ "]"]
    else reqs ++ [name]) []

/-! ## The hdlist filter spec parser (`Pack.__init__`) -/

/-- Parsing of the filter spec in `Pack.__init__` (src/urpm.py:30-36):
`filter.decode().split(":")[1].split(" ")[0]` is the compressor name and
`- int(...split(" ")[1])` the level — the level token carries a leading
dash (e.g. ".cz:gzip -9"), so the negation yields the positive level.
`none` models the exceptions raised for a malformed spec or an
unsupported compressor. -/
def parseFilter (f : String) : Option (String × Int) := do
  let part ← (pySplit f ':').get? 1
  let words := pySplit part ' '
  let fname ← words.get? 0
  let tok ← words.get? 1
  let n ← pyInt tok
  let level := -n
  if fname = "gzip" ∨ fname = "xz" then some (fname, level) else none

/-- The compressor invocation in `Pack.end_block` (src/urpm.py:317-327):
gzip gets `self.level` as `compresslevel`, xz gets `self.level` as
`preset` — the same stored value in both branches. -/
inductive CompressorCall where
  | gzipCall (compresslevel : Int)
  | xzCall (preset : Int)
deriving DecidableEq

/-- Which compressor `end_block` invokes, and with which level argument. -/
def compressorCall (filterName : String) (level : Int) :
    Option CompressorCall :=
  if filterName = "gzip" then some (CompressorCall.gzipCall level)
  else if filterName = "xz" then some (CompressorCall.xzCall level)
  else none

/-! ## Helper lemmas for the claims -/

theorem writeInfoGo_error (q : String) :
    ∀ (syn : List (String × PkgEntry)) (acc : String),
    (∃ p ∈ syn, p.2.sourcerpm = none) →
    writeInfoGo q syn acc = Except.error "sys.exit(1): Missing sourcerpm"
  | [], acc => by rintro ⟨p, hp, _⟩; simp at hp
  | (n, e) :: rest, acc => by
    rintro ⟨p, hp, hnone⟩
    rcases List.mem_cons.mp hp with hp | hp
    · subst hp
      have hnone' : e.sourcerpm = none := hnone
      simp only [writeInfoGo, hnone']
    · cases hsrc : e.sourcerpm with
      | none => simp only [writeInfoGo, hsrc]
      | some s =>
        simp only [writeInfoGo, hsrc]
        exact writeInfoGo_error q rest _ ⟨p, hp, hnone⟩

theorem writeInfoGo_ok (q : String) :
    ∀ (syn : List (String × PkgEntry)) (acc : String),
    (∀ p ∈ syn, p.2.sourcerpm ≠ none) →
    ∃ s, writeInfoGo q syn acc = Except.ok s
  | [], acc => fun _ => ⟨acc, rfl⟩
  | (n, e) :: rest, acc => fun h => by
    cases hsrc : e.sourcerpm with
    | none =>
      exact absurd hsrc (h (n, e) (List.mem_cons_self _ _))
    | some src =>
      simp only [writeInfoGo, hsrc]
      exact writeInfoGo_ok q rest _
        (fun p hp => h p (List.mem_cons_of_mem _ hp))

/-! ## Claim theorems -/

set_option maxRecDepth 100000

/-- C1 (code bug): with a single package "a.rpm" whose raw header is the
two bytes [1, 2] (identity taken for the abstract compressor), `write`
records the metadata `size = 2, off = 2, csize = 0, coff = 0` — `off`
is the offset one past the entry's end (src/urpm.py:160 increments
before line 164 records), and `csize` is 0 because src/urpm.py:331
stamps `current_block_csize` before line 332 adds the compressed size.
Decompressing the `csize` bytes at `coff` and reading `size` bytes at
`off` therefore yields the empty string, not the header bytes, even
with a perfect decompressor. -/
theorem C1_roundtrip_fails :
    dictLookup (packWriteSim 409600 (fun d => d) "gzip"
      [("a.rpm", [1, 2])]).files "a.rpm" = some ⟨2, 2, 0, 0⟩ ∧
    (packWriteSim 409600 (fun d => d) "gzip"
      [("a.rpm", [1, 2])]).fileData = [1, 2] ∧
    entryRead (fun d => d) [1, 2] ⟨2, 2, 0, 0⟩ = [] ∧
    ([] : List Nat) ≠ [1, 2] := by decide

/-- C2 (code bug): for the same single-package archive, `build_toc`
accumulates the 16-byte per-entry record into `toc_sizes_offsets` but
never appends it to `toc_str`, so neither the tuple in the claimed field
order `(coff, csize, off, size) = (0, 0, 2, 2)` nor the tuple the source
actually packs (the dict values `size, off, csize, coff` bound to those
variable names by the destructuring at src/urpm.py:292) occurs anywhere
in the bytes written to the archive. -/
theorem C2_toc_tuples_missing :
    (build_toc (fun d => d) "gzip" (packWriteSim 409600 (fun d => d) "gzip"
      [("a.rpm", [1, 2])])).tocOrphan
      = ((metaValues ⟨2, 2, 0, 0⟩).map int32BE).flatten ∧
    hasRun (int32BE 0 ++ int32BE 0 ++ int32BE 2 ++ int32BE 2)
      (build_toc (fun d => d) "gzip" (packWriteSim 409600 (fun d => d) "gzip"
        [("a.rpm", [1, 2])])).fileData = false ∧
    hasRun ((metaValues ⟨2, 2, 0, 0⟩).map int32BE).flatten
      (build_toc (fun d => d) "gzip" (packWriteSim 409600 (fun d => d) "gzip"
        [("a.rpm", [1, 2])])).fileData = false := by decide

/-- C3 counterexample: a package added with no source-package identifier
(header tag value `None`) does not make info generation fail —
`add_pkg` stores the `'sourcerpm'` key with value `None`
(src/urpm.py:190), the guard at src/urpm.py:118 tests key membership
only and does not fire, and all three sidecar documents are written
(the info element rendering the value as "None"); the claimed failure
of the info document never happens. -/
theorem C3_counterexample :
    (pkgEntryOf { name := "pkg" } 1).sourcerpm = some none ∧
    writeAllXml [("pkg-1.rpm", pkgEntryOf { name := "pkg" } 1)]
      = (["info", "files", "changelog"], false) := by decide

/-- C3 amended: a package whose source-package identifier tag is absent
does not cause info generation to fail: `add_pkg` always inserts the
`'sourcerpm'` key (first conjunct), and for every synthesis whose
entries carry the key — whatever its value — the info, file-list and
changelog documents are all generated and written, with no exit.  The
`sys.exit(1)` path fires only for an entry dict lacking the key
entirely, which `add_pkg` never produces. -/
theorem C3_amended :
    (∀ (hdr : RpmHdr) (order : Nat),
      (pkgEntryOf hdr order).sourcerpm = some hdr.sourcerpm) ∧
    (∀ syn : List (String × PkgEntry), (∀ p ∈ syn, p.2.sourcerpm ≠ none) →
      writeAllXml syn = (["info", "files", "changelog"], false)) := by
  refine ⟨fun hdr order => rfl, fun syn h => ?_⟩
  obtain ⟨s, hs⟩ := writeInfoGo_ok (⟨[Char.ofNat 39]⟩ : String) syn xmlHead h
  have hinfo : writeXmlDoc syn "info" = Except.ok (s ++ "</media_info>") := by
    simp [writeXmlDoc, writeInfoDoc, hs, Except.map]
  have hfiles : writeXmlDoc syn "files" = Except.ok (writeFilesDoc syn) := rfl
  have hch : writeXmlDoc syn "changelog"
      = Except.ok (writeChangelogDoc syn) := rfl
  simp [writeAllXml, runXmlDocs, hinfo, hfiles, hch]

/-- C3 amended, witnessed at a concrete one-package synthesis built by
`add_pkg` from a header whose sourcerpm tag is `None`. -/
theorem C3_amended_witness :
    writeAllXml [("pkg-1.rpm", pkgEntryOf { name := "pkg" } 1)]
      = (["info", "files", "changelog"], false) :=
  C3_amended.2 [("pkg-1.rpm", pkgEntryOf { name := "pkg" } 1)] (by decide)

/-- C4 counterexample: recording two packages under the same basename is
a plain dict assignment (src/urpm.py:239) — `add_pkg` is total, raises
nothing, and the second record silently replaces the first. -/
theorem C4_counterexample :
    (add_pkg (add_pkg ⟨[], 0⟩ { name := "pkg", description := "first" }
        "d/pkg-1.rpm") { name := "pkg", description := "second" }
        "d/pkg-1.rpm").synthesis
      = [("pkg-1.rpm", pkgEntryOf { name := "pkg", description := "second" } 2)] ∧
    pkgEntryOf { name := "pkg", description := "second" } 2
      ≠ pkgEntryOf { name := "pkg", description := "first" } 1 := by decide

/-- C4 amended: recording two packages under the same name keeps exactly
the last record: the key set is unchanged by the second insertion and
the stored entry is the second package's `package_info`; no error of any
kind is signalled (`add_pkg` is a total function into `PackSyn`). -/
theorem C4_amended (st : PackSyn) (hdrA hdrB : RpmHdr) (f : String) :
    ((add_pkg (add_pkg st hdrA f) hdrB f).synthesis.map Prod.fst
      = (add_pkg st hdrA f).synthesis.map Prod.fst) ∧
    dictLookup (add_pkg (add_pkg st hdrA f) hdrB f).synthesis (pyBasename f)
      = some (pkgEntryOf hdrB (st.order + 2)) := by
  constructor
  · simp only [add_pkg]
    exact dictInsert_keys_of_mem _ _ _ (dictInsert_mem_keys st.synthesis _ _)
  · simp only [add_pkg]
    exact dictLookup_dictInsert_self _ _ _

/-- C5 counterexample: a first call of `Pack.write` succeeds and closes
the handle; a second call raises (`end_seek` seeks on the closed file),
which is neither "no writes" with "the same success state" nor a no-op. -/
theorem C5_counterexample :
    packWriteFin packHandleInit = Except.ok ⟨true, false, 1⟩ ∧
    Except.bind (packWriteFin packHandleInit) packWriteFin
      = Except.error "ValueError: seek of closed file" ∧
    (Except.error "ValueError: seek of closed file" : Except String PackHandle)
      ≠ Except.ok ⟨true, false, 1⟩ := by
  refine ⟨rfl, rfl, fun h => Except.noConfusion h⟩

/-- C5 amended: `write` is not idempotent — the second invocation fails
on the closed stream — but the implicit finalize is: `__del__` is
guarded by the `destroyed` flag, performs nothing after a successful
`write`, and when `write` was never called it finalizes exactly once
(a second teardown is a no-op for every state). -/
theorem C5_amended :
    Except.bind (packWriteFin packHandleInit) packWriteFin
      = Except.error "ValueError: seek of closed file" ∧
    packDel ⟨true, false, 1⟩ = ⟨true, false, 1⟩ ∧
    packDel packHandleInit = ⟨true, false, 1⟩ ∧
    ∀ st : PackHandle, packDel (packDel st) = packDel st := by
  refine ⟨rfl, rfl, rfl, fun st => ?_⟩
  by_cases h : st.destroyed <;> simp [packDel, h]

/-- C7 counterexample: the default gzip filter spec ".cz:gzip -9"
parses to the *positive* level 9 (the dash lives in the spec text and
`__init__` negates the parsed integer), and `end_block` hands that same
non-negative value to the gzip compressor as `compresslevel` — not a
negative level argument as the claim states. -/
theorem C7_counterexample :
    parseFilter ".cz:gzip -9" = some ("gzip", 9) ∧
    compressorCall "gzip" 9 = some (CompressorCall.gzipCall 9) ∧
    ¬ (9 : Int) < 0 := by decide

/-- C7 amended: a level 0-9 appears dash-prefixed in the filter spec;
parsing negates it back to the positive value, and both compressor
families receive that same positive 0-9 level (`compresslevel` for
gzip, `preset` for xz). -/
theorem C7_amended (n : Nat) (h : n ≤ 9) :
    parseFilter (".cz:gzip -" ++ toString n) = some ("gzip", (n : Int)) ∧
    parseFilter (".cz:xz -" ++ toString n) = some ("xz", (n : Int)) ∧
    compressorCall "gzip" (n : Int)
      = some (CompressorCall.gzipCall (n : Int)) ∧
    compressorCall "xz" (n : Int) = some (CompressorCall.xzCall (n : Int)) := by
  interval_cases n <;> exact ⟨by decide, by decide, by decide, by decide⟩

/-- C7 amended, witnessed at the default level 9. -/
theorem C7_amended_witness :
    parseFilter (".cz:gzip -" ++ toString 9) = some ("gzip", ((9 : Nat) : Int)) ∧
    parseFilter (".cz:xz -" ++ toString 9) = some ("xz", ((9 : Nat) : Int)) ∧
    compressorCall "gzip" ((9 : Nat) : Int)
      = some (CompressorCall.gzipCall ((9 : Nat) : Int)) ∧
    compressorCall "xz" ((9 : Nat) : Int)
      = some (CompressorCall.xzCall ((9 : Nat) : Int)) :=
  C7_amended 9 (by decide)

/-- C9: the dependency-constraint formatter maps EQUAL to "==",
LESS|EQUAL to "<=", an empty version to the bare name, and drops every
dependency whose name starts with the reserved "rpmlib(" capability
marker — any such name, whatever its version and flags. -/
theorem C9_dep_formatter :
    print_list_entry [("foo", "1.0", RPMSENSE_EQUAL)] = ["foo[== 1.0]"] ∧
    print_list_entry [("foo", "1.0", RPMSENSE_LESS ||| RPMSENSE_EQUAL)]
      = ["foo[<= 1.0]"] ∧
    print_list_entry [("foo", "", 0)] = ["foo"] ∧
    ∀ (name v : String) (f : Nat), pyStartswith name "rpmlib(" = true →
      print_list_entry [(name, v, f)] = [] := by
  refine ⟨by decide, by decide, by decide, fun name v f h => ?_⟩
  simp [print_list_entry, h]

/-- C9 witness: the universal drop rule applied to a concrete rpmlib
capability with a nonempty version and nonzero flags. -/
theorem C9_dep_formatter_witness :
    print_list_entry [("rpmlib(FileDigests)", "4.6.0-1", 16777226)] = [] :=
  C9_dep_formatter.2.2.2 "rpmlib(FileDigests)" "4.6.0-1" 16777226 (by decide)

/-! ## Block-structure lemmas for C8 -/

theorem end_block_inv (compress : List Nat → List Nat) (fn : String)
    (st : PackSt)
    (h1 : st.curData = (st.curFiles.map Prod.snd).flatten)
    (h2 : ∀ b ∈ st.blocks, b.data = (b.entries.map Prod.snd).flatten) :
    ((end_block compress fn st).curData
      = (((end_block compress fn st).curFiles).map Prod.snd).flatten) ∧
    (∀ b ∈ (end_block compress fn st).blocks,
      b.data = (b.entries.map Prod.snd).flatten) := by
  refine ⟨rfl, ?_⟩
  intro b hb
  simp only [end_block, List.mem_append, List.mem_singleton] at hb
  rcases hb with hb | hb
  · exact h2 b hb
  · subst hb
    exact h1

theorem writeStep_inv (bs : Nat) (compress : List Nat → List Nat)
    (fn : String) (st : PackSt) (p : String × List Nat)
    (h1 : st.curData = (st.curFiles.map Prod.snd).flatten)
    (h2 : ∀ b ∈ st.blocks, b.data = (b.entries.map Prod.snd).flatten) :
    ((writeStep bs compress fn st p).curData
      = (((writeStep bs compress fn st p).curFiles).map Prod.snd).flatten) ∧
    (∀ b ∈ (writeStep bs compress fn st p).blocks,
      b.data = (b.entries.map Prod.snd).flatten) := by
  have h1' : st.curData ++ p.2
      = ((st.curFiles ++ [p]).map Prod.snd).flatten := by
    simp [h1]
  simp only [writeStep]
  split
  · exact end_block_inv compress fn _ h1' h2
  · exact ⟨h1', h2⟩

theorem writeLoop_inv (bs : Nat) (compress : List Nat → List Nat)
    (fn : String) :
    ∀ (pkgs : List (String × List Nat)) (st : PackSt),
    st.curData = (st.curFiles.map Prod.snd).flatten →
    (∀ b ∈ st.blocks, b.data = (b.entries.map Prod.snd).flatten) →
    ((pkgs.foldl (writeStep bs compress fn) st).curData
      = (((pkgs.foldl (writeStep bs compress fn) st).curFiles).map
          Prod.snd).flatten) ∧
    (∀ b ∈ (pkgs.foldl (writeStep bs compress fn) st).blocks,
      b.data = (b.entries.map Prod.snd).flatten)
  | [], st => fun hd hb => ⟨hd, hb⟩
  | p :: rest, st => fun hd hb => by
    have hstep := writeStep_inv bs compress fn st p hd hb
    simpa using writeLoop_inv bs compress fn rest
      (writeStep bs compress fn st p) hstep.1 hstep.2

/-- The names recorded so far: those inside emitted blocks, then those
of the currently open block. -/
def packAllNames (st : PackSt) : List String :=
  (st.blocks.map (fun b => b.entries.map Prod.fst)).flatten
    ++ st.curFiles.map Prod.fst

theorem end_block_packAllNames (compress : List Nat → List Nat) (fn : String)
    (st : PackSt) : packAllNames (end_block compress fn st) = packAllNames st := by
  simp [packAllNames, end_block]

theorem writeStep_packAllNames (bs : Nat) (compress : List Nat → List Nat)
    (fn : String) (st : PackSt) (p : String × List Nat) :
    packAllNames (writeStep bs compress fn st p) = packAllNames st ++ [p.1] := by
  simp only [writeStep]
  split
  · rw [end_block_packAllNames]
    simp [packAllNames]
  · simp [packAllNames]

theorem writeLoop_packAllNames (bs : Nat) (compress : List Nat → List Nat)
    (fn : String) :
    ∀ (pkgs : List (String × List Nat)) (st : PackSt),
    packAllNames (pkgs.foldl (writeStep bs compress fn) st)
      = packAllNames st ++ pkgs.map Prod.fst
  | [], st => by simp
  | p :: rest, st => by
    simp only [List.foldl_cons, List.map_cons]
    rw [writeLoop_packAllNames bs compress fn rest, writeStep_packAllNames]
    simp

theorem writeStep_big (bs : Nat) (compress : List Nat → List Nat)
    (fn : String) (st : PackSt) (p : String × List Nat)
    (h : ∀ b ∈ st.blocks, bs ≤ b.data.length) :
    ∀ b ∈ (writeStep bs compress fn st p).blocks, bs ≤ b.data.length := by
  simp only [writeStep]
  split
  · intro b hb
    simp only [end_block, List.mem_append, List.mem_singleton] at hb
    rcases hb with hb | hb
    · exact h b hb
    · subst hb
      assumption
  · exact h

theorem writeLoop_big (bs : Nat) (compress : List Nat → List Nat)
    (fn : String) :
    ∀ (pkgs : List (String × List Nat)) (st : PackSt),
    (∀ b ∈ st.blocks, bs ≤ b.data.length) →
    ∀ b ∈ (pkgs.foldl (writeStep bs compress fn) st).blocks,
      bs ≤ b.data.length
  | [], st => fun h => h
  | p :: rest, st => fun h => by
    simpa using writeLoop_big bs compress fn rest
      (writeStep bs compress fn st p) (writeStep_big bs compress fn st p h)

theorem end_block_blocks (compress : List Nat → List Nat) (fn : String)
    (st : PackSt) : (end_block compress fn st).blocks
      = st.blocks ++ [⟨st.coff, st.curFiles, st.curData, compress st.curData⟩] :=
  rfl

/-- C8: every package belongs to exactly one block of the archive and no
raw header is split across blocks: each emitted block's uncompressed
data is exactly the concatenation of the headers of its own entries, the
concatenation of the blocks' entry-name lists is the input name sequence
(so each input name lands in exactly one block), a block emitted by the
loop (every block but the final partial flush) is only closed once its
accumulated size has reached `block_size`, and with a 1-byte threshold
two packages of 10 and 20 header bytes occupy one block each (the final
`end_block` of `write` then emits a trailing entry-less flush). -/
theorem C8_no_entry_split :
    (∀ (bs : Nat) (compress : List Nat → List Nat) (fn : String)
        (pkgs : List (String × List Nat)),
      ∀ b ∈ (packWriteSim bs compress fn pkgs).blocks,
        b.data = (b.entries.map Prod.snd).flatten) ∧
    (∀ (bs : Nat) (compress : List Nat → List Nat) (fn : String)
        (pkgs : List (String × List Nat)),
      ((packWriteSim bs compress fn pkgs).blocks.map
        (fun b => b.entries.map Prod.fst)).flatten = pkgs.map Prod.fst) ∧
    (∀ (bs : Nat) (compress : List Nat → List Nat) (fn : String)
        (pkgs : List (String × List Nat)),
      ∀ b ∈ ((packWriteSim bs compress fn pkgs).blocks).dropLast,
        bs ≤ b.data.length) ∧
    ((packWriteSim 1 (fun d => d) "gzip"
        [("p1", List.replicate 10 7), ("p2", List.replicate 20 8)]).blocks.map
      (fun b => b.entries.map Prod.fst) = [["p1"], ["p2"], []]) := by
  refine ⟨?_, ?_, ?_, by decide⟩
  · intro bs compress fn pkgs
    have hloop := writeLoop_inv bs compress fn pkgs
      { curOff := 0, curCoff := 0 } rfl (by intro b hb; simp at hb)
    exact (end_block_inv compress fn _ hloop.1 hloop.2).2
  · intro bs compress fn pkgs
    have hnames : packAllNames (packWriteSim bs compress fn pkgs)
        = pkgs.map Prod.fst := by
      unfold packWriteSim
      rw [end_block_packAllNames, writeLoop_packAllNames]
      simp [packAllNames]
    have hcur : (packWriteSim bs compress fn pkgs).curFiles = [] := rfl
    have := hnames
    simp only [packAllNames, hcur] at this
    simpa using this
  · intro bs compress fn pkgs
    have hloop := writeLoop_big bs compress fn pkgs
      { curOff := 0, curCoff := 0 } (by intro b hb; simp at hb)
    intro b hb
    refine hloop b ?_
    unfold packWriteSim at hb
    rw [end_block_blocks, List.dropLast_concat] at hb
    exact hb

/-- C8 witness: the no-split property applied to the concrete one-block
archive of a single two-byte package. -/
theorem C8_no_entry_split_witness :
    (Block.mk 0 [("a.rpm", [1, 2])] [1, 2] [1, 2]).data
      = ((Block.mk 0 [("a.rpm", [1, 2])] [1, 2] [1, 2]).entries.map
          Prod.snd).flatten :=
  C8_no_entry_split.1 409600 (fun d => d) "gzip" [("a.rpm", [1, 2])]
    (Block.mk 0 [("a.rpm", [1, 2])] [1, 2] [1, 2]) (by decide)

/-- C6: the names in the TOC are emitted in Python's lexicographic
string order whatever the insertion order: the emitted name list is
invariant under permutations of the entry map, it is sorted, and
inserting "c.rpm", "a.rpm", "b.rpm" yields TOC order a, b, c. -/
theorem C6_toc_sorted :
    (∀ f₁ f₂ : List (String × FileMeta),
      (f₁.map Prod.fst).Perm (f₂.map Prod.fst) → tocNames f₁ = tocNames f₂) ∧
    (∀ f : List (String × FileMeta), List.Sorted pyLe (tocNames f)) ∧
    tocNames (packWriteSim 409600 (fun d => d) "gzip"
      [("c.rpm", [0]), ("a.rpm", [0]), ("b.rpm", [0])]).files
      = ["a.rpm", "b.rpm", "c.rpm"] := by
  refine ⟨?_, ?_, by decide⟩
  · intro f₁ f₂ h
    exact List.eq_of_perm_of_sorted
      (((List.perm_insertionSort pyLe (f₁.map Prod.fst)).trans h).trans
        (List.perm_insertionSort pyLe (f₂.map Prod.fst)).symm)
      (List.sorted_insertionSort pyLe (f₁.map Prod.fst))
      (List.sorted_insertionSort pyLe (f₂.map Prod.fst))
  · intro f
    exact List.sorted_insertionSort pyLe (f.map Prod.fst)

/-- C6 witness: permutation invariance applied to two concrete
two-entry maps in swapped insertion order. -/
theorem C6_toc_sorted_witness :
    tocNames [("b.rpm", FileMeta.mk 1 1 0 0), ("a.rpm", FileMeta.mk 1 1 0 0)]
      = tocNames [("a.rpm", FileMeta.mk 1 1 0 0),
          ("b.rpm", FileMeta.mk 1 1 0 0)] :=
  C6_toc_sorted.1 _ _ (by decide)

/-- write() iterates `self.synthesis.keys()` with
`data = self.synthesis[rpm]['header']` (src/urpm.py:156-158). -/
def synToPkgs (st : PackSyn) : List (String × List Nat) :=
  st.synthesis.map (fun p => (p.1, p.2.header))

/-- C10: every package is keyed — in the synthesis dict, hence in the
archive's file map/TOC and in the sidecar documents — by the basename
of the RPM file it was read from, extension included, not by the header
name; the closing synthesis `@info` line strips exactly one trailing
".rpm" from that basename. -/
theorem C10_basename_key :
    (∀ (st : PackSyn) (hdr : RpmHdr) (f : String),
      dictLookup (add_pkg st hdr f).synthesis (pyBasename f)
        = some (pkgEntryOf hdr (st.order + 1))) ∧
    ((add_pkg ⟨[], 0⟩ { name := "pkg" }
        "repo/pkg-1.0-1.x86_64.rpm").synthesis.map Prod.fst
      = ["pkg-1.0-1.x86_64.rpm"] ∧
      dictLookup (add_pkg ⟨[], 0⟩ { name := "pkg" }
        "repo/pkg-1.0-1.x86_64.rpm").synthesis "pkg" = none) ∧
    (tocNames (packWriteSim 409600 (fun d => d) "gzip"
        (synToPkgs (add_pkg (add_pkg ⟨[], 0⟩ { name := "b" } "d/b-1.rpm")
          { name := "a" } "d/a-1.rpm"))).files = ["a-1.rpm", "b-1.rpm"]) ∧
    (pyRemovesuffix "pkg-1.0-1.x86_64.rpm" ".rpm" = "pkg-1.0-1.x86_64") ∧
    (pyRemovesuffix "x.rpm.rpm" ".rpm" = "x.rpm") ∧
    (synthesisInfoLine "pkg-1.0-1.x86_64.rpm" { epoch := 0, size := 5, group := "Sys" }
      = "@info@pkg-1.0-1.x86_64@0@5@Sys\n") ∧
    (writeFilesDoc [("a-1.rpm", { filesList := ["/bin/a"] })]
      = xmlHead ++ "<files fn=\"a-1.rpm\">\n/bin/a\n</files>\n</media_info>") := by
  refine ⟨?_, by decide, by decide, by decide, by decide, by decide, by decide⟩
  intro st hdr f
  simp only [add_pkg]
  exact dictLookup_dictInsert_self _ _ _
